import Mathlib

/-!
Verification of the Data-alchemist validation engine.

Shallow embedding of the `ValidationEngine` class (src/unnamed/part_005) and
the in-memory data registry (src/unnamed/part_003) of the Data-alchemist
repository, together with proofs settling the frozen claims about them.

Modelling conventions for the JavaScript/TypeScript source:
* JS values are modelled by the inductive type `Value`; `Value.vNull` models
  an absent field / `undefined` (explicit `null` is conflated with it).
* JS numbers are modelled as `Option Int` where `none` stands for `NaN`
  (and other non-finite results); the string→number coercion `Number(...)`
  is modelled on its integer fragment (decimal integer literals with an
  optional sign); fractional, exponential and hexadecimal literals and the
  `Infinity` literals are modelled as `NaN` — no claim under scrutiny
  involves them.  Quality scores, which involve an exact division, are
  modelled over `ℚ` (again with `none` for `NaN`).
* String helpers (`trim`, splitting on `/\s*,\s*/`, `toLowerCase`, …) are
  re-implemented over `List Char` mirroring the JS semantics; the JS
  whitespace class `\s` is modelled by `Char.isWhitespace` of Lean core
  (space, tab, CR, LF), which covers every whitespace character appearing
  in the claims.
* Code that can throw is modelled with `Except Unit`; the registry access
  `require("./data-context"); getData(...)`, which the source wraps in
  `try`/`catch`, is modelled by an `Except Unit Registry` argument.
* The AI-backed enrichment (`performAIValidation`) checks for an API key
  and returns empty finding lists when none is present or on any error;
  the embedding fixes the environment without an API key, so this step
  contributes no findings (exactly the source's no-key / catch path).
* `new Date()` / `new Date().toISOString()` are modelled by an explicit
  evaluation environment `Env` carrying the current instant both as an
  integer timestamp and as its ISO rendering, and `Date` parsing of
  strings as an abstract function `Env.dateParse`.
-/

namespace DataAlchemist

/-- JS runtime values as they occur in the engine's records:
strings, numbers (`none` = `NaN`), booleans, arrays and plain objects;
`vNull` models `undefined` (an absent field). -/
inductive Value where
  | vNull : Value
  | vStr (s : String) : Value
  | vNum (n : Option Int) : Value
  | vBool (b : Bool) : Value
  | vArr (elems : List Value) : Value
  | vObj (fields : List (String × Value)) : Value

/-- A record (spreadsheet row): an object, i.e. a list of named fields. -/
abbrev Obj := List (String × Value)

/-- Evaluation environment: the current instant (`new Date()`), its ISO
rendering (`new Date().toISOString()`), and the JS `Date` string parser,
kept abstract. -/
structure Env where
  now : Int
  nowISO : String
  dateParse : String → Option Int

/-- The JS whitespace class `\s` (restricted to the characters Lean's
`Char.isWhitespace` knows; sufficient for all inputs considered). -/
def jsIsWs (c : Char) : Bool := c.isWhitespace

/-- `String.prototype.trim` on a character list. -/
def trimChars (cs : List Char) : List Char :=
  ((cs.dropWhile jsIsWs).reverse.dropWhile jsIsWs).reverse

/-- `String.prototype.trim`. -/
def jsTrim (s : String) : String := String.mk (trimChars s.toList)

/-- `String.prototype.toLowerCase` (ASCII case folding). -/
def jsToLower (s : String) : String := String.mk (s.toList.map Char.toLower)

/-- `String.prototype.split` with a single-character separator
(e.g. `field.split(".")`, `s.split("@")`). -/
def splitOnCharAux (sep : Char) : List Char → List Char → List String
  | [], acc => [String.mk acc.reverse]
  | c :: rest, acc =>
    if c = sep then String.mk acc.reverse :: splitOnCharAux sep rest []
    else splitOnCharAux sep rest (c :: acc)

/-- `s.split(sep)` for a one-character `sep`. -/
def splitOnChar (sep : Char) (s : String) : List String := splitOnCharAux sep s.toList []

/-- JS truthiness. -/
def jsTruthy : Value → Bool
  | .vNull => false
  | .vStr s => !s.isEmpty
  | .vNum none => false
  | .vNum (some n) => n ≠ 0
  | .vBool b => b
  | .vArr _ => true
  | .vObj _ => true

/-- Digits-to-number, `natOfDigits ['1','2'] = 12`. -/
def natOfDigits (ds : List Char) : Nat :=
  ds.foldl (fun n c => n * 10 + (c.toNat - '0'.toNat)) 0

/-- `Number(s)` for a string `s`, on its integer fragment: the input is
trimmed, the empty string coerces to `0`, an optional sign followed by
decimal digits coerces to the corresponding integer, and everything else
is `NaN` (`none`).  (Fractional/exponential/hex literals and `Infinity`,
which coerce differently in JS, are modelled as `NaN`; no claim depends
on them.) -/
def jsStrToNumber (s : String) : Option Int :=
  let t := trimChars s.toList
  if t.isEmpty then some 0
  else
    match t with
    | '-' :: ds => if !ds.isEmpty && ds.all Char.isDigit then some (-(natOfDigits ds : Int)) else none
    | '+' :: ds => if !ds.isEmpty && ds.all Char.isDigit then some ((natOfDigits ds : Int)) else none
    | ds => if ds.all Char.isDigit then some ((natOfDigits ds : Int)) else none

mutual
/-- `String(v)`: JS conversion of a value to a string. -/
def jsToString : Value → String
  | .vNull => "undefined"
  | .vStr s => s
  | .vNum none => "NaN"
  | .vNum (some n) => toString n
  | .vBool b => if b then "true" else "false"
  | .vArr vs => String.intercalate "," (jsArrElemStrings vs)
  | .vObj _ => "[object Object]"

/-- Element strings for array `toString` (`null`/`undefined` render empty). -/
def jsArrElemStrings : List Value → List String
  | [] => []
  | .vNull :: vs => "" :: jsArrElemStrings vs
  | v :: vs => jsToString v :: jsArrElemStrings vs
end

/-- `Number(v)`: JS conversion of a value to a number (`none` = `NaN`). -/
def jsToNumber : Value → Option Int
  | .vNull => none
  | .vStr s => jsStrToNumber s
  | .vNum n => n
  | .vBool b => some (if b then 1 else 0)
  | .vArr [] => some 0
  | .vArr [v] => jsStrToNumber (jsToString v)
  | .vArr (_ :: _ :: _) => none
  | .vObj _ => none

/-- Object property lookup `o[k]` (`undefined` when absent). -/
def getKey (fields : List (String × Value)) (k : String) : Value :=
  match fields.find? (fun p => p.1 == k) with
  | some p => p.2
  | none => .vNull

/-- Nullish coalescing `a ?? b`. -/
def jsNullish (a b : Value) : Value :=
  match a with
  | .vNull => b
  | v => v

/-! ## List-parsing utilities (§4.6 of the spec)

`ValidationEngine.parseNumberList` / `parseStringList`
(src/unnamed/part_005, lines 885–928). -/

/-- `String.prototype.split(/\s*,\s*/)` on a character list: each comma,
together with the contiguous whitespace on either side of it, separates
tokens (the regex engine's earliest-greedy match).  `acc` is the reversed
current token; the flag records that we are directly behind a comma and
still dropping the whitespace belonging to that separator. -/
def splitCommaWsAux : List Char → List Char → Bool → List String
  | [], acc, _ => [String.mk acc.reverse]
  | c :: rest, acc, skipping =>
    if c = ',' then
      String.mk (acc.dropWhile jsIsWs).reverse :: splitCommaWsAux rest [] true
    else if skipping && jsIsWs c then
      splitCommaWsAux rest acc true
    else
      splitCommaWsAux rest (c :: acc) false

/-- `s.split(/\s*,\s*/)`. -/
def splitCommaWs (s : String) : List String := splitCommaWsAux s.toList [] false

/-- `s.replace(/\[|\]/g, "")`. -/
def stripBrackets (s : String) : String :=
  String.mk (s.toList.filter (fun c => !(c = '[' || c = ']')))

/-- Match against `/^(\d+)\s*-\s*(\d+)$/`, returning the two captured
numbers. -/
def matchRange (s : String) : Option (Nat × Nat) :=
  let cs := s.toList
  let d1 := cs.takeWhile Char.isDigit
  let rest1 := cs.dropWhile Char.isDigit
  if d1.isEmpty then none
  else
    match rest1.dropWhile jsIsWs with
    | '-' :: rest2 =>
      let rest3 := rest2.dropWhile jsIsWs
      let d2 := rest3.takeWhile Char.isDigit
      let rest4 := rest3.dropWhile Char.isDigit
      if d2.isEmpty || !rest4.isEmpty then none
      else some (natOfDigits d1, natOfDigits d2)
    | _ => none

/-- One signed-integer token of a JSON number array. -/
def parseJsonInt (cs : List Char) : Option (Int × List Char) :=
  match cs with
  | '-' :: rest =>
    let ds := rest.takeWhile Char.isDigit
    if ds.isEmpty then none else some (-(natOfDigits ds : Int), rest.dropWhile Char.isDigit)
  | _ =>
    let ds := cs.takeWhile Char.isDigit
    if ds.isEmpty then none else some ((natOfDigits ds : Int), cs.dropWhile Char.isDigit)

/-- Remaining elements of a JSON number array, after the first element:
`(ws ',' ws int)* ws ']' ws END`. -/
def parseJsonElems (fuel : Nat) (cs : List Char) (acc : List Int) : Option (List Int) :=
  match fuel with
  | 0 => none
  | fuel + 1 =>
    match cs.dropWhile jsIsWs with
    | ']' :: rest => if (rest.dropWhile jsIsWs).isEmpty then some acc.reverse else none
    | ',' :: rest =>
      match parseJsonInt (rest.dropWhile jsIsWs) with
      | some (n, rest') => parseJsonElems fuel rest' (n :: acc)
      | none => none
    | _ => none

/-- `JSON.parse` restricted to arrays of integer literals, already composed
with the `Number`-coercion the source applies to the parsed array (which is
the identity on integers).  Anything outside this fragment is a parse
failure (`none`), which in the source falls through to the range and
comma-separated grammar.  (Real `JSON.parse` also accepts e.g. string,
boolean or fractional elements; the claims do not involve those, and for
the inputs under scrutiny the fall-through path computes the same result.) -/
def jsonParseNums (s : String) : Option (List Int) :=
  match s.toList.dropWhile jsIsWs with
  | '[' :: rest =>
    match rest.dropWhile jsIsWs with
    | ']' :: rest' => if (rest'.dropWhile jsIsWs).isEmpty then some [] else none
    | body =>
      match parseJsonInt body with
      | some (n, rest') => parseJsonElems s.length rest' [n]
      | none => none
  | _ => none

/-- `input.map(n => Number(n)).filter(n => Number.isFinite(n))`:
the array branch of `parseNumberList`. -/
def numListOfArr (vs : List Value) : List Int := vs.filterMap jsToNumber

/-- The comma-separated fall-through of `parseNumberList`:
`trimmed.replace(/\[|\]/g, "").split(/\s*,\s*/).filter(Boolean).map(Number).filter(isFinite)`. -/
def commaPath (trimmed : String) : List Int :=
  (splitCommaWs (stripBrackets trimmed)).filter (fun t => !t.isEmpty) |>.filterMap jsStrToNumber

/-- Range / comma-separated handling of a trimmed input string (the part of
`parseNumberList` after the JSON attempt). -/
def strFallback (trimmed : String) : List Int :=
  match matchRange trimmed with
  | some (a, b) =>
    if a ≤ b then (List.range (b + 1 - a)).map (fun i => ((a + i : Nat) : Int))
    else commaPath trimmed
  | none => commaPath trimmed

/-- `ValidationEngine.parseNumberList` (src/unnamed/part_005, lines
885–918). -/
def parseNumberList (input : Value) : List Int :=
  match input with
  | .vArr vs => numListOfArr vs
  | .vStr s =>
    let trimmed := jsTrim s
    if trimmed.toList.head? = some '[' && trimmed.toList.getLast? = some ']' then
      match jsonParseNums trimmed with
      | some ns => ns
      | none => strFallback trimmed
    else strFallback trimmed
  | _ => []

/-- `ValidationEngine.parseStringList` (src/unnamed/part_005, lines
920–928).  The `replace(/^\"|\"$/g, "")` strips one leading and one
trailing double-quote from a token. -/
def stripQuotes (t : String) : String :=
  let cs := t.toList
  let cs := match cs with
    | '"' :: rest => rest
    | _ => cs
  let cs := match cs.reverse with
    | '"' :: rest => rest.reverse
    | _ => cs
  String.mk cs

def parseStringList (input : Value) : List String :=
  match input with
  | .vArr vs => (vs.map (fun v => jsTrim (jsToString v))).filter (fun t => !t.isEmpty)
  | .vStr s =>
    ((splitCommaWs s).map (fun t => jsTrim (stripQuotes t))).filter (fun t => !t.isEmpty)
  | _ => []

example : parseNumberList (.vStr "[1,2,3]") = [1, 2, 3] := by decide
example : parseNumberList (.vStr "1-3") = [1, 2, 3] := by decide
example : parseNumberList (.vStr "2,,4") = [2, 4] := by decide
example : parseNumberList (.vStr "not a list") = [] := by decide
example : parseNumberList (.vStr "5-3") = [] := by decide
example : parseNumberList (.vStr "[ ]") = [] := by decide
example : parseNumberList (.vStr " [2, 5 , 9] ") = [2, 5, 9] := by decide
example : parseStringList (.vStr "React, \"Python\" ,,SQL") = ["React", "Python", "SQL"] := by decide

/-! ## Rules and findings

`ValidationRule`, `ValidationError` (= Finding) and `ValidationResult`
as used by src/unnamed/part_005. -/

/-- A validation finding (`ValidationError` in src/types): field, message,
severity (`"error" | "warning" | "info"`), optional fix suggestions. -/
structure Finding where
  field : String
  message : String
  severity : String
  suggestions : Option (List String) := none
deriving DecidableEq

/-- The predicate language of the rule conditions.  The source stores each
condition as a JS expression string and evaluates it with `new Function`;
the constructors below are the expressions occurring in
`initializeDefaultRules`, plus `malformed`, standing for any condition
string whose compilation or evaluation throws. -/
inductive Cond where
  /-- `value != null && value.trim() != ""` — throws (`TypeError`) when the
  value is neither nullish nor a string, since only strings have `trim`. -/
  | notNullNotBlank
  /-- `value >= lo && value <= hi` (numeric relational coercion;
  comparisons against `NaN` are false). -/
  | numRange (lo hi : Int)
  /-- `value === undefined || (Number(value) >= 1000 && Number(value) <= 1000000)`. -/
  | budgetCheck
  /-- `/^[^\s@]+@[^\s@]+\.[^\s@]+$/.test(value)` (the value is coerced to a
  string by `test`). -/
  | emailFormat
  /-- `Array.isArray(value) && value.length > 0`. -/
  | nonEmptyArray
  /-- `[...).includes(value)` over a list of string literals. -/
  | enumMember (vals : List String)
  /-- `new Date(value) > new Date()`. -/
  | dateFuture
  /-- Any condition string whose evaluation throws. -/
  | malformed
deriving DecidableEq

/-- A validation rule (interface `ValidationRule`, src/unnamed/part_005,
lines 281–291). -/
structure ValidationRule where
  id : String
  name : String
  field : String
  type : String
  condition : Cond
  message : String
  severity : String
  autoFix : Bool := false
  fixSuggestion : Option String := none

/-- The engine's rule store `Map<string, ValidationRule[]>`, as an
association list from entity kind to rule list. -/
abbrev Rules := List (String × List ValidationRule)

/-- `this.rules.get(dataType) || []`. -/
def getRules (rules : Rules) (dataType : String) : List ValidationRule :=
  match rules.find? (fun p => p.1 == dataType) with
  | some p => p.2
  | none => []

/-- `/^[^\s@]+@[^\s@]+\.[^\s@]+$/.test(s)`: exactly one `@`; a nonempty
whitespace-free local part; a nonempty whitespace-free domain containing a
dot that is neither its first nor its last character. -/
def emailMatches (s : String) : Bool :=
  match splitOnChar '@' s with
  | [a, b] =>
    !a.isEmpty && a.toList.all (fun c => !jsIsWs c) &&
    b.toList.all (fun c => !jsIsWs c) &&
    (b.toList.dropLast.drop 1).contains '.'
  | _ => false

/-- `new Date(v)` as a timestamp (`none` = Invalid Date): numbers are
timestamps, strings go through the abstract `Date` parser, and all other
values (in particular `undefined`) give an Invalid Date. -/
def jsDate (env : Env) : Value → Option Int
  | .vNum n => n
  | .vStr s => env.dateParse s
  | _ => none

/-- Evaluation of a condition against `{value, record}`, with `Except`
tracking a thrown exception.  (The evaluation context exposes the full
record, but none of the default conditions reads it.) -/
def evalCondExc (env : Env) (c : Cond) (value : Value) (_record : Obj) : Except Unit Bool :=
  match c with
  | .notNullNotBlank =>
    match value with
    | .vNull => .ok false
    | .vStr s => .ok (!(jsTrim s).isEmpty)
    | _ => .error ()
  | .numRange lo hi =>
    match jsToNumber value with
    | none => .ok false
    | some n => .ok (lo ≤ n && n ≤ hi)
  | .budgetCheck =>
    match value with
    | .vNull => .ok true
    | v =>
      match jsToNumber v with
      | none => .ok false
      | some n => .ok (1000 ≤ n && n ≤ 1000000)
  | .emailFormat => .ok (emailMatches (jsToString value))
  | .nonEmptyArray =>
    match value with
    | .vArr vs => .ok (!vs.isEmpty)
    | _ => .ok false
  | .enumMember vals =>
    match value with
    | .vStr s => .ok (vals.contains s)
    | _ => .ok false
  | .dateFuture =>
    match jsDate env value with
    | none => .ok false
    | some t => .ok (env.now < t)
  | .malformed => .error ()

/-- `ValidationEngine.evaluateCondition` (src/unnamed/part_005, lines
846–856): a thrown exception is caught and the rule counts as passed
(fail-open). -/
def evaluateCondition (env : Env) (c : Cond) (value : Value) (record : Obj) : Bool :=
  match evalCondExc env c value record with
  | .ok b => b
  | .error _ => true

/-- `ValidationEngine.getFieldValue` (lines 841–844): dotted-path nested
lookup via `field.split(".").reduce((obj, key) => obj?.[key], record)`. -/
def getFieldValue (record : Obj) (field : String) : Value :=
  (splitOnChar '.' field).foldl
    (fun v k =>
      match v with
      | .vObj fs => getKey fs k
      | _ => .vNull)
    (.vObj record)

/-- Rounding `Math.round` (round half toward `+∞`). -/
def jsRound (q : ℚ) : ℚ := (⌊q + 1/2⌋ : ℤ)

/-- The completeness test of `calculateQualityScore`:
`value !== null && value !== undefined && value !== ""`. -/
def isNonEmptyField : Value → Bool
  | .vNull => false
  | .vStr s => !s.isEmpty
  | _ => true

/-- `ValidationEngine.calculateQualityScore` (lines 858–882).  The score is
a JS number; with zero fields the completeness ratio is `0/0 = NaN`, which
propagates through `Math.round`, `Math.min` and `Math.max`, so the result
is `NaN` (`none`). -/
def calculateQualityScore (record : Obj) (errors warnings suggestions : List Finding) : Option ℚ :=
  let base : ℚ := 100 - 20 * errors.length - 10 * warnings.length - 5 * suggestions.length
  let fields := record
  let nonEmptyFields := fields.filter (fun p => isNonEmptyField p.2)
  if fields.length = 0 then none
  else
    let completenessBonus : ℚ := (nonEmptyFields.length : ℚ) / (fields.length : ℚ) * 10
    some (max 0 (min 100 (jsRound (base + completenessBonus))))

/-- `record.id || record._rowIndex?.toString()`. -/
def recordIdOf (record : Obj) : Value :=
  let idv := getKey record "id"
  if jsTruthy idv then idv
  else
    match getKey record "_rowIndex" with
    | .vNull => .vNull
    | v => .vStr (jsToString v)

/-- The finding a failed rule produces (lines 485–490). -/
def findingOfRule (rule : ValidationRule) : Finding :=
  { field := rule.field
    message := rule.message
    severity := rule.severity
    suggestions :=
      match rule.fixSuggestion with
      | some s => if s.isEmpty then none else some [s]
      | none => none }

/-- `ValidationResult` (src/types): per-record validation outcome. -/
structure ValidationResult where
  isValid : Bool
  errors : List Finding
  warnings : List Finding
  suggestions : List Finding
  score : Option ℚ
  recordId : Value
  recordType : String
  qualityScore : Option ℚ
  validatedAt : String

/-- `ValidationEngine.validateRecord` (lines 473–522).  The AI-enhanced
step `performAIValidation` contributes no findings (the engine runs
without an AI API key, the source's explicit no-key path, which is also
its catch-all error path). -/
def validateRecord (rules : Rules) (env : Env) (record : Obj) (dataType : String) :
    ValidationResult :=
  let rlist := getRules rules dataType
  let findings := rlist.filterMap (fun rule =>
    if evaluateCondition env rule.condition (getFieldValue record rule.field) record then none
    else some (findingOfRule rule))
  let errors := findings.filter (fun f => f.severity == "error")
  let warnings := findings.filter (fun f => f.severity == "warning")
  let suggestions := findings.filter (fun f => !(f.severity == "error") && !(f.severity == "warning"))
  let score := calculateQualityScore record errors warnings suggestions
  { isValid := errors.isEmpty
    errors := errors
    warnings := warnings
    suggestions := suggestions
    score := score
    recordId := recordIdOf record
    recordType := dataType
    qualityScore := score
    validatedAt := env.nowISO }

/-! ## Default rule catalog (`initializeDefaultRules`, lines 302–454) -/

def defaultClientRules : List ValidationRule :=
  [ { id := "client-name-required", name := "Client Name Required", field := "ClientName",
      type := "required", condition := .notNullNotBlank,
      message := "Client name is required", severity := "error" },
    { id := "client-id-required", name := "Client ID Required", field := "ClientID",
      type := "required", condition := .notNullNotBlank,
      message := "Client ID is required", severity := "error" },
    { id := "client-priority-level-range", name := "Priority Level Range", field := "PriorityLevel",
      type := "range", condition := .numRange 1 5,
      message := "Priority level must be between 1 and 5", severity := "error" },
    { id := "client-budget-range", name := "Budget Range Check", field := "budget",
      type := "range", condition := .budgetCheck,
      message := "Budget should be between $1,000 and $1,000,000", severity := "warning" } ]

def defaultWorkerRules : List ValidationRule :=
  [ { id := "worker-name-required", name := "Worker Name Required", field := "name",
      type := "required", condition := .notNullNotBlank,
      message := "Worker name is required", severity := "error" },
    { id := "worker-email-format", name := "Valid Email Format", field := "email",
      type := "format", condition := .emailFormat,
      message := "Please provide a valid email address", severity := "error",
      autoFix := true, fixSuggestion := some "Check email format (example@domain.com)" },
    { id := "worker-rate-range", name := "Hourly Rate Range", field := "hourlyRate",
      type := "range", condition := .numRange 15 500,
      message := "Hourly rate should be between $15 and $500", severity := "warning" },
    { id := "worker-skills-required", name := "Skills Required", field := "skills",
      type := "custom", condition := .nonEmptyArray,
      message := "At least one skill is required", severity := "error" },
    { id := "worker-availability-valid", name := "Valid Availability Status", field := "availability",
      type := "custom", condition := .enumMember ["available", "busy", "unavailable"],
      message := "Availability must be available, busy, or unavailable", severity := "error",
      autoFix := true, fixSuggestion := some "Use: available, busy, or unavailable" } ]

def defaultTaskRules : List ValidationRule :=
  [ { id := "task-title-required", name := "Task Title Required", field := "title",
      type := "required", condition := .notNullNotBlank,
      message := "Task title is required", severity := "error" },
    { id := "task-deadline-future", name := "Future Deadline", field := "deadline",
      type := "custom", condition := .dateFuture,
      message := "Deadline should be in the future", severity := "warning" },
    { id := "task-hours-range", name := "Estimated Hours Range", field := "estimatedHours",
      type := "range", condition := .numRange 1 1000,
      message := "Estimated hours should be between 1 and 1000", severity := "warning" },
    { id := "task-priority-valid", name := "Valid Priority Level", field := "priority",
      type := "custom", condition := .enumMember ["urgent", "high", "medium", "low"],
      message := "Priority must be urgent, high, medium, or low", severity := "error",
      autoFix := true, fixSuggestion := some "Use: urgent, high, medium, or low" } ]

/-- The rule store after the constructor ran `initializeDefaultRules`. -/
def defaultRules : Rules :=
  [("clients", defaultClientRules), ("workers", defaultWorkerRules), ("tasks", defaultTaskRules)]

/-! ## Registry and cross-record validation -/

/-- The in-memory data registry of src/unnamed/part_003 (`data-context`). -/
structure Registry where
  clients : List Obj
  workers : List Obj
  tasks : List Obj

/-- A duplicate group found by `findDuplicates` (lines 776–813). -/
structure DupEntry where
  indices : List Nat
  field : String
  message : String
deriving DecidableEq

/-- `getKeyFields` (lines 815–827). -/
def getKeyFields (dataType : String) : List String :=
  if dataType = "clients" then ["id", "ClientID", "email", "name", "ClientName"]
  else if dataType = "workers" then ["id", "email", "name"]
  else if dataType = "tasks" then ["id", "TaskID", "TaskName"]
  else []

/-- Insertion-ordered grouping of record indices by the (lowercased,
trimmed) rendering of a field value, skipping falsy values — the
`valueMap` built per key field in `findDuplicates`. -/
def groupByKey (records : List Obj) (field : String) : List (String × List Nat) :=
  records.enum.foldl
    (fun m (p : Nat × Obj) =>
      let value := getFieldValue p.2 field
      if jsTruthy value then
        let key := jsTrim (jsToLower (jsToString value))
        match m.find? (fun q => q.1 == key) with
        | some _ => m.map (fun q => if q.1 == key then (q.1, q.2 ++ [p.1]) else q)
        | none => m ++ [(key, [p.1])]
      else m)
    []

/-- `ValidationEngine.findDuplicates` (lines 776–813). -/
def findDuplicates (records : List Obj) (dataType : String) : List DupEntry :=
  (getKeyFields dataType).flatMap (fun field =>
    (groupByKey records field).filterMap (fun g =>
      if g.2.length > 1 then
        some { indices := g.2, field := field,
               message := "Duplicate " ++ field ++ ": \"" ++ g.1 ++ "\" found in multiple records" }
      else none))

/-- The warning finding attached to every member of a duplicate group. -/
def dupFinding (d : DupEntry) : Finding :=
  { field := d.field, message := d.message, severity := "warning",
    suggestions := some ["Review for potential duplicate entries"] }

/-- `ValidationEngine.isValidClientReference` (lines 829–839): consults the
registry; a *failing* registry access is caught and the reference counts
as valid (fail-open), while a successful access requires some client to
match on one of the id field aliases, so an *empty* client collection
makes every reference invalid. -/
def isValidClientReference (regAcc : Except Unit Registry) (clientId : Value) : Bool :=
  match regAcc with
  | .error _ => true
  | .ok reg =>
    reg.clients.any (fun c =>
      ["id", "ClientID", "clientId"].any (fun k =>
        let v := getKey c k
        jsToLower (jsToString (if jsTruthy v then v else .vStr "")) ==
          jsToLower (jsToString clientId)))

/-- The client-reference candidates of a task (line 623). -/
def clientRefCandidates (record : Obj) : List Value :=
  [getKey record "clientId", getKey record "ClientID", getKey record "client_id"]

/-- The `Referenced client does not exist` finding. -/
def clientRefFinding : Finding :=
  { field := "clientId", message := "Referenced client does not exist", severity := "error",
    suggestions := some ["Verify client ID exists in clients data"] }

/-- Client-reference check for one task record (lines 622–633). -/
def clientRefErrors (regAcc : Except Unit Registry) (record : Obj) : List Finding :=
  match (clientRefCandidates record).find? jsTruthy with
  | some ref => if isValidClientReference regAcc ref then [] else [clientRefFinding]
  | none => []

/-- Duration check for one task record (lines 636–646). -/
def durationErrors (record : Obj) : List Finding :=
  let duration := jsToNumber (jsNullish (getKey record "Duration") (jsNullish (getKey record "duration")
    (jsNullish (getKey record "estimatedHours") (getKey record "estimated_hours"))))
  match duration with
  | none => [{ field := "Duration", message := "Duration must be a positive number (>= 1)",
               severity := "error", suggestions := some ["Set Duration to an integer >= 1"] }]
  | some d =>
    if d < 1 then
      [{ field := "Duration", message := "Duration must be a positive number (>= 1)",
         severity := "error", suggestions := some ["Set Duration to an integer >= 1"] }]
    else []

/-- `PreferredPhases` well-formedness for one task record (lines 648–659). -/
def phasesErrors (record : Obj) : List Finding :=
  match jsNullish (getKey record "PreferredPhases") (getKey record "preferredPhases") with
  | .vNull => []
  | raw =>
    if (parseNumberList raw).isEmpty then
      [{ field := "PreferredPhases",
         message := "PreferredPhases must be a list/range like \x271-3\x27 or [2,4,5]",
         severity := "error" }]
    else []

/-- `AvailableSlots` well-formedness for one worker record (lines 663–675). -/
def slotsErrors (record : Obj) : List Finding :=
  match jsNullish (getKey record "AvailableSlots") (getKey record "availableSlots") with
  | .vNull => []
  | raw =>
    if (parseNumberList raw).isEmpty then
      [{ field := "AvailableSlots",
         message := "AvailableSlots must be an array of numbers (e.g., [1,3,5])",
         severity := "error" }]
    else []

/-- The case-folded union of all worker skills (lines 686–688). -/
def allWorkerSkills (workers : List Obj) : List String :=
  (workers.flatMap (fun w => parseStringList (jsNullish (getKey w "Skills") (getKey w "skills")))).map jsToLower

/-- Required skills of a task record (line 690). -/
def requiredSkillsOf (record : Obj) : List String :=
  parseStringList (jsNullish (getKey record "RequiredSkills") (getKey record "requiredSkills"))

/-- Skill-coverage check for one task record (lines 685–701). -/
def skillCoverageErrors (workers : List Obj) (record : Obj) : List Finding :=
  let workerSkills := allWorkerSkills workers
  let missing := (requiredSkillsOf record).filter (fun s => !workerSkills.contains (jsToLower s))
  if missing.isEmpty then []
  else
    [{ field := "RequiredSkills",
       message := "Missing worker coverage for skills: " ++ String.intercalate ", " missing,
       severity := "error",
       suggestions := some ["Add workers with these skills or adjust task requirements"] }]

/-- Max-concurrency feasibility check for one task record (lines 704–721). -/
def maxConcurrentErrors (workers : List Obj) (record : Obj) : List Finding :=
  let skills := (requiredSkillsOf record).map jsToLower
  let rawMc := jsNullish (getKey record "MaxConcurrent")
    (jsNullish (getKey record "maxConcurrent") (.vNum (some 1)))
  let qualified := (workers.filter (fun w =>
    let ws := (parseStringList (jsNullish (getKey w "Skills") (getKey w "skills"))).map jsToLower
    skills.all (fun s => ws.contains s))).length
  match jsToNumber rawMc with
  | none => []
  | some mc =>
    if mc > qualified then
      [{ field := "MaxConcurrent",
         message := "MaxConcurrent (" ++ toString mc ++ ") exceeds number of qualified workers (" ++
           toString qualified ++ ")",
         severity := "error",
         suggestions := some ["Lower MaxConcurrent or add more qualified workers"] }]
    else []

/-- Per-phase capacity: the sum over workers of `MaxLoadPerPhase`
(default `1`; non-finite replaced by `1`) for every occurrence of the
phase in the worker's `AvailableSlots` (lines 725–732). -/
def phaseCapacity (workers : List Obj) (p : Int) : Int :=
  workers.foldl
    (fun acc w =>
      let slots := parseNumberList (jsNullish (getKey w "AvailableSlots") (getKey w "availableSlots"))
      let load := (jsToNumber (jsNullish (getKey w "MaxLoadPerPhase")
        (jsNullish (getKey w "maxLoadPerPhase") (.vNum (some 1))))).getD 1
      acc + (slots.count p) * load)
    0

/-- Phase-slot saturation warnings for one task record (lines 733–748). -/
def phaseSaturationWarnings (workers : List Obj) (record : Obj) : List Finding :=
  let duration := jsToNumber (jsNullish (getKey record "Duration")
    (jsNullish (getKey record "duration") (.vNum (some 1))))
  match duration with
  | none => []
  | some d =>
    if d = 0 then []
    else
      let phases := parseNumberList (jsNullish (getKey record "PreferredPhases") (getKey record "preferredPhases"))
      phases.filterMap (fun p =>
        let cap := phaseCapacity workers p
        if d > cap then
          some { field := "PreferredPhases",
                 message := "Phase " ++ toString p ++ " demand (" ++ toString d ++
                   ") may exceed worker capacity (" ++ toString cap ++ ")",
                 severity := "warning",
                 suggestions := some ["Adjust phases, increase capacity or reduce duration"] }
        else none)

/-- The known task identifiers, case-folded (lines 754–756). -/
def knownTaskIds (tasks : List Obj) : List String :=
  (tasks.map (fun t =>
    jsToLower (jsToString (jsNullish (getKey t "TaskID")
      (jsNullish (getKey t "id") (jsNullish (getKey t "title") (.vStr ""))))))).filter
    (fun s => !s.isEmpty)

/-- The ids a client requests (lines 758–759). -/
def requestedTaskIdsOf (record : Obj) : List String :=
  parseStringList (jsNullish (getKey record "RequestedTaskIDs")
    (jsNullish (getKey record "requestedTasks") (getKey record "tasks")))

/-- The single `Unknown TaskIDs` finding enumerating all missing ids. -/
def unknownTaskFinding (unknown : List String) : Finding :=
  { field := "RequestedTaskIDs",
    message := "Unknown TaskIDs: " ++ String.intercalate ", " unknown,
    severity := "error",
    suggestions := some ["Correct TaskIDs or add missing tasks"] }

/-- Reference-integrity check for one client record (lines 752–770). -/
def requestedTaskErrors (tasks : List Obj) (record : Obj) : List Finding :=
  let taskIds := knownTaskIds tasks
  let unknown := (requestedTaskIdsOf record).filter (fun id => !taskIds.contains (jsToLower id))
  if unknown.isEmpty then [] else [unknownTaskFinding unknown]

/-- The registry-consulting error findings for one record — the body of the
`try { const { getData } = require("./data-context"); ... }` block (lines
679–771), which is skipped wholesale when the registry access throws.
Note that each of these checks is additionally guarded on the needed
registry collections being nonempty. -/
def registryErrors (regAcc : Except Unit Registry) (record : Obj) (dataType : String) :
    List Finding :=
  match regAcc with
  | .error _ => []
  | .ok reg =>
    (if !reg.tasks.isEmpty && !reg.workers.isEmpty && dataType = "tasks" then
      skillCoverageErrors reg.workers record ++ maxConcurrentErrors reg.workers record
     else []) ++
    (if !reg.clients.isEmpty && !reg.tasks.isEmpty && dataType = "clients" then
      requestedTaskErrors reg.tasks record
     else [])

/-- The registry-consulting warning findings for one record (the
phase-slot saturation check of the same `try` block). -/
def registryWarnings (regAcc : Except Unit Registry) (record : Obj) (dataType : String) :
    List Finding :=
  match regAcc with
  | .error _ => []
  | .ok reg =>
    if !reg.tasks.isEmpty && !reg.workers.isEmpty && dataType = "tasks" then
      phaseSaturationWarnings reg.workers record
    else []

/-- The structural (registry-free) error findings the cross-record pass
adds to one record (lines 620–676). -/
def structuralErrors (regAcc : Except Unit Registry) (record : Obj) (dataType : String) :
    List Finding :=
  if dataType = "tasks" then
    clientRefErrors regAcc record ++ durationErrors record ++ phasesErrors record
  else if dataType = "workers" then
    slotsErrors record
  else []

/-- `record.id || record._rowIndex?.toString() || index.toString()`. -/
def crossRecordIdOf (record : Obj) (index : Nat) : Value :=
  let x := recordIdOf record
  if jsTruthy x then x else .vStr (toString index)

/-- `ValidationEngine.performCrossRecordValidation` (lines 593–774): one
fresh `ValidationResult` per record (all-valid, score 100), into which the
duplicate warnings, the structural checks and — unless the registry access
throws — the registry-consulting checks push their findings.  The source
never updates the `isValid` flag of these fresh results. -/
def performCrossRecordValidation (env : Env) (regAcc : Except Unit Registry)
    (records : List Obj) (dataType : String) : List ValidationResult :=
  let dups := findDuplicates records dataType
  records.enum.map (fun (p : Nat × Obj) =>
    { isValid := true
      errors := structuralErrors regAcc p.2 dataType ++ registryErrors regAcc p.2 dataType
      warnings := (dups.filter (fun d => d.indices.contains p.1)).map dupFinding ++
        registryWarnings regAcc p.2 dataType
      suggestions := []
      score := some 100
      recordId := crossRecordIdOf p.2 p.1
      recordType := dataType
      qualityScore := some 100
      validatedAt := env.nowISO })

/-- The per-index merge of a cross-record result into a per-record result
(lines 531–538): findings are appended and `isValid` is conjoined; every
other field keeps the per-record value. -/
def mergeResult (r c : ValidationResult) : ValidationResult :=
  { r with
    errors := r.errors ++ c.errors
    warnings := r.warnings ++ c.warnings
    suggestions := r.suggestions ++ c.suggestions
    isValid := r.isValid && c.isValid }

/-- `crossValidation.forEach((crossResult, index) => if (results[index]) ...)`:
positional merge; indices beyond either list are left alone. -/
def mergeResults : List ValidationResult → List ValidationResult → List ValidationResult
  | rs, [] => rs
  | [], _ :: _ => []
  | r :: rs, c :: cs => mergeResult r c :: mergeResults rs cs

/-- `ValidationEngine.validateBatch` (lines 524–541). -/
def validateBatch (rules : Rules) (env : Env) (regAcc : Except Unit Registry)
    (records : List Obj) (dataType : String) : List ValidationResult :=
  mergeResults (records.map (fun r => validateRecord rules env r dataType))
    (performCrossRecordValidation env regAcc records dataType)

/-! ## Specification-side definitions

Definitions written from the spec's words, for comparison with the
embedded code. -/

/-- The quality-score formula exactly as §4.3 of the spec states it:
`clamp(0, 100, round(100 − 20·#errors − 10·#warnings − 5·#suggestions
+ 10·(nonEmptyFieldCount/fieldCount)))`. -/
def specQualityScore (record : Obj) (nErrors nWarnings nSuggestions : Nat) : ℚ :=
  let fieldCount : ℚ := record.length
  let nonEmptyFieldCount : ℚ := (record.filter (fun p => isNonEmptyField p.2)).length
  max 0 (min 100 (jsRound
    (100 - 20 * nErrors - 10 * nWarnings - 5 * nSuggestions +
      10 * (nonEmptyFieldCount / fieldCount))))

/-- Erase the `validatedAt` timestamp of a result (used to compare two
validation runs up to their wall-clock stamps). -/
def stripTime (r : ValidationResult) : ValidationResult := { r with validatedAt := "" }

/-! ## Concrete fixtures used by witnesses and counterexamples -/

/-- An evaluation environment at the epoch, whose `Date` parser accepts
nothing (every date string is an Invalid Date). -/
def env0 : Env := ⟨0, "1970-01-01T00:00:00.000Z", fun _ => none⟩

/-- A later evaluation environment (same abstract instant class, one
second later). -/
def env1 : Env := ⟨1000, "1970-01-01T00:00:01.000Z", fun _ => none⟩

/-- The registry before any upload: three empty collections. -/
def emptyReg : Registry := ⟨[], [], []⟩

/-- A task record that passes every per-record error rule but carries no
duration field. -/
def taskNoDuration : Obj := [("title", .vStr "T"), ("priority", .vStr "low")]

/-- A task referencing client `"C1"`, with a valid duration. -/
def taskWithClientRef : Obj :=
  [("title", .vStr "T"), ("clientId", .vStr "C1"), ("Duration", .vNum (some 2))]

/-- One worker whose only skill is React. -/
def workerReact : Obj := [("Skills", .vArr [.vStr "React"])]

/-- A task requiring React and Python. -/
def taskReactPython : Obj :=
  [("title", .vStr "Build"), ("priority", .vStr "low"), ("Duration", .vNum (some 2)),
   ("RequiredSkills", .vArr [.vStr "React", .vStr "Python"])]

/-- Registry for the skill-coverage scenario: the single React worker and
the task batch itself. -/
def regSkill : Registry := ⟨[], [workerReact], [taskReactPython]⟩

/-- A client requesting tasks `T1`, `T9` and `T10`. -/
def clientReqTasks : Obj :=
  [("ClientID", .vStr "c1"), ("ClientName", .vStr "Acme"),
   ("PriorityLevel", .vNum (some 3)), ("RequestedTaskIDs", .vStr "T1,T9,T10")]

/-- Registry for the reference-integrity scenario: the requesting client
and a single known task `t1`. -/
def regReqTasks : Registry := ⟨[clientReqTasks], [], [[("TaskID", .vStr "t1")]]⟩

/-- A record whose `ClientName` is a number, so that
`value != null && value.trim() != ""` throws a `TypeError`. -/
def recNumName : Obj := [("ClientName", .vNum (some 5))]

/-- The first default client rule (`client-name-required`), standing alone. -/
def ruleNameRequired : ValidationRule :=
  { id := "client-name-required", name := "Client Name Required", field := "ClientName",
    type := "required", condition := .notNullNotBlank,
    message := "Client name is required", severity := "error" }

/-- A one-field client record. -/
def clientAcme : Obj := [("ClientName", .vStr "Acme")]

/-! ## General helper lemmas -/

theorem isEmpty_eq_length_beq {α : Type} (l : List α) : l.isEmpty = (l.length == 0) := by
  cases l <;> rfl

theorem mergeResults_length (rs cs : List ValidationResult) :
    (mergeResults rs cs).length = rs.length := by
  induction rs generalizing cs with
  | nil => cases cs <;> rfl
  | cons r rs ih =>
    cases cs with
    | nil => rfl
    | cons c cs => simp [mergeResults, ih]

theorem mergeResults_getElem? (rs cs : List ValidationResult) (i : Nat) :
    (mergeResults rs cs)[i]? =
      match rs[i]?, cs[i]? with
      | some r, some c => some (mergeResult r c)
      | some r, none => some r
      | none, _ => none := by
  induction rs generalizing cs i with
  | nil => cases cs <;> simp [mergeResults]
  | cons r rs ih =>
    cases cs with
    | nil =>
      cases i with
      | zero => simp [mergeResults]
      | succ j => cases h : rs[j]? <;> simp [mergeResults, h]
    | cons c cs =>
      cases i with
      | zero => simp [mergeResults]
      | succ j => simpa [mergeResults] using ih cs j

theorem calculateQualityScore_eq_spec (record : Obj) (e w s : List Finding)
    (h : record ≠ []) :
    calculateQualityScore record e w s =
      some (specQualityScore record e.length w.length s.length) := by
  have hlen : ¬(record.length = 0) := by
    simpa [List.length_eq_zero] using h
  simp only [calculateQualityScore, specQualityScore]
  rw [if_neg hlen]
  exact congrArg (fun x : ℚ => some (0 ⊔ 100 ⊓ jsRound x)) (by ring)

/-! ## Claim theorems -/

/-- C1: the invariant `isValid == (errors.length == 0)` holds for every
result of `validateRecord`, but `validateBatch` breaks it: the
cross-record results never have their `isValid` flag cleared when errors
are pushed into them, so after the merge a record that passed all
per-record rules keeps `isValid = true` even though a cross-record error
(here the missing-`Duration` error) was appended.  The second conjunct
evaluates such a failing batch. -/
theorem c1_isValid_invariant_code_bug :
    (∀ (rules : Rules) (env : Env) (record : Obj) (dataType : String),
      (validateRecord rules env record dataType).isValid =
        ((validateRecord rules env record dataType).errors.length == 0)) ∧
    (validateBatch defaultRules env0 (.ok emptyReg) [taskNoDuration] "tasks").map
      (fun r => (r.isValid, r.errors.length)) = [(true, 1)] := by
  refine ⟨fun rules env record dataType => ?_, rfl⟩
  exact isEmpty_eq_length_beq _

/-- C2 counterexample: for a record with no fields the completeness ratio
is `0/0 = NaN`, which survives `round`/`min`/`max`, so the returned
quality score is `NaN` — not a number in `[0, 100]` as the claim
demands. -/
theorem c2_empty_record_score_is_NaN :
    (validateRecord defaultRules env0 ([] : Obj) "clients").score = none := rfl

/-- C2 (amended): for every record with at least one field the quality
score equals the spec's formula
`clamp(0, 100, round(100 − 20·#errors − 10·#warnings − 5·#suggestions +
10·(nonEmptyFieldCount/fieldCount)))` and lies in `[0, 100]`; it is a
deterministic function of the record, the rule set and the evaluation
environment (the embedded validator is a pure function of exactly
those). -/
theorem c2_quality_score_formula (rules : Rules) (env : Env) (record : Obj)
    (dataType : String) (h : record ≠ []) :
    ((validateRecord rules env record dataType).score =
      some (specQualityScore record
        (validateRecord rules env record dataType).errors.length
        (validateRecord rules env record dataType).warnings.length
        (validateRecord rules env record dataType).suggestions.length)) ∧
    (∀ q : ℚ, (validateRecord rules env record dataType).score = some q →
      0 ≤ q ∧ q ≤ 100) := by
  have hmain : (validateRecord rules env record dataType).score =
      some (specQualityScore record
        (validateRecord rules env record dataType).errors.length
        (validateRecord rules env record dataType).warnings.length
        (validateRecord rules env record dataType).suggestions.length) :=
    calculateQualityScore_eq_spec record
      (validateRecord rules env record dataType).errors
      (validateRecord rules env record dataType).warnings
      (validateRecord rules env record dataType).suggestions h
  refine ⟨hmain, fun q hq => ?_⟩
  have h2 : some q = some (specQualityScore record
      (validateRecord rules env record dataType).errors.length
      (validateRecord rules env record dataType).warnings.length
      (validateRecord rules env record dataType).suggestions.length) := hq.symm.trans hmain
  obtain rfl : q = specQualityScore record _ _ _ := Option.some_injective _ h2
  simp only [specQualityScore]
  constructor
  · exact le_max_left _ _
  · exact max_le (by norm_num) (min_le_left _ _)

/-- C2 witness: the amended formula evaluated on a concrete one-field
record. -/
theorem c2_quality_score_formula_witness :
    clientAcme ≠ [] ∧
    (validateRecord defaultRules env0 clientAcme "clients").score =
      some (specQualityScore clientAcme
        (validateRecord defaultRules env0 clientAcme "clients").errors.length
        (validateRecord defaultRules env0 clientAcme "clients").warnings.length
        (validateRecord defaultRules env0 clientAcme "clients").suggestions.length) :=
  ⟨by simp [clientAcme],
   (c2_quality_score_formula defaultRules env0 clientAcme "clients" (by simp [clientAcme])).1⟩

/-- C3: `validateBatch` always returns exactly one result per input
record (the embedding is total, so it also always completes — every
faulting path of the source is caught and modelled as a value). -/
theorem c3_validateBatch_length (rules : Rules) (env : Env)
    (regAcc : Except Unit Registry) (records : List Obj) (dataType : String) :
    (validateBatch rules env regAcc records dataType).length = records.length := by
  unfold validateBatch
  rw [mergeResults_length, List.length_map]

/-- C4: a rule whose predicate evaluation throws contributes no finding
and does not disturb the remaining rules — validating against
`pre ++ bad :: post` returns exactly the result of validating against
`pre ++ post`. -/
theorem c4_throwing_rule_is_passed (env : Env) (pre post : List ValidationRule)
    (bad : ValidationRule) (record : Obj) (kind : String)
    (hthrow : evalCondExc env bad.condition (getFieldValue record bad.field) record =
      .error ()) :
    validateRecord [(kind, pre ++ bad :: post)] env record kind =
      validateRecord [(kind, pre ++ post)] env record kind := by
  have hrules : ∀ l : List ValidationRule, getRules [(kind, l)] kind = l := by
    intro l
    simp [getRules]
  have hpass : evaluateCondition env bad.condition (getFieldValue record bad.field) record =
      true := by
    simp [evaluateCondition, hthrow]
  have hfind :
      (pre ++ bad :: post).filterMap (fun rule =>
        if evaluateCondition env rule.condition (getFieldValue record rule.field) record then
          none
        else some (findingOfRule rule)) =
      (pre ++ post).filterMap (fun rule =>
        if evaluateCondition env rule.condition (getFieldValue record rule.field) record then
          none
        else some (findingOfRule rule)) := by
    simp [List.filterMap_append, List.filterMap_cons, hpass]
  simp only [validateRecord, hrules, hfind]

/-- C4 witness: the `client-name-required` condition
`value != null && value.trim() != ""` throws on a numeric `ClientName`
(numbers have no `trim`), and the record validates exactly as if the rule
were absent. -/
theorem c4_throwing_rule_is_passed_witness :
    evalCondExc env0 Cond.notNullNotBlank (getFieldValue recNumName "ClientName") recNumName =
      .error () ∧
    validateRecord [("clients", [ruleNameRequired])] env0 recNumName "clients" =
      validateRecord [("clients", [])] env0 recNumName "clients" := by
  refine ⟨rfl, ?_⟩
  have h := c4_throwing_rule_is_passed env0 [] [] ruleNameRequired recNumName "clients" rfl
  simpa using h

/-- C5 counterexample: with a *successfully accessed but empty* client
collection, a task carrying a client reference does receive the
`Referenced client does not exist` error — the check is not skipped on an
empty other collection, contrary to the claim. -/
theorem c5_empty_clients_still_errors :
    emptyReg.clients = [] ∧
    clientRefFinding.message = "Referenced client does not exist" ∧
    (performCrossRecordValidation env0 (.ok emptyReg) [taskWithClientRef] "tasks").map
      (fun res => res.errors) = [[clientRefFinding]] :=
  ⟨rfl, rfl, rfl⟩

/-- C5 (amended): the checks inside the registry-guarded block (skill
coverage, max-concurrency, phase saturation, requested-task integrity)
are skipped when the needed other collection is empty or when the
registry access throws, and a throwing registry access also makes every
client reference count as valid; but the client-reference check is *not*
skipped when the client collection is merely empty — the task then gets
the `Referenced client does not exist` error. -/
theorem c5_cross_dataset_guards (env : Env) (reg : Registry) (r : Obj) (v : Value) :
    isValidClientReference (Except.error ()) v = true ∧
    (reg.workers = [] →
      registryErrors (Except.ok reg) r "tasks" = [] ∧
      registryWarnings (Except.ok reg) r "tasks" = []) ∧
    (reg.tasks = [] → registryErrors (Except.ok reg) r "clients" = []) ∧
    (reg.clients = [] → (clientRefCandidates r).find? jsTruthy = some v →
      ∀ res ∈ performCrossRecordValidation env (Except.ok reg) [r] "tasks",
        clientRefFinding ∈ res.errors) := by
  refine ⟨rfl, fun hw => ?_, fun ht => ?_, fun hc hv res hres => ?_⟩
  · constructor <;> simp [registryErrors, registryWarnings, hw]
  · simp [registryErrors, ht]
  · have hinvalid : isValidClientReference (Except.ok reg) v = false := by
      simp [isValidClientReference, hc]
    have herr : clientRefErrors (Except.ok reg) r = [clientRefFinding] := by
      simp [clientRefErrors, hv, hinvalid]
    simp only [performCrossRecordValidation, List.enum, List.enumFrom, List.map_cons,
      List.map_nil, List.mem_cons, List.not_mem_nil, or_false] at hres
    subst hres
    simp [structuralErrors, herr]

/-- C5 witness: the amended guards evaluated on the empty registry and a
task referencing client `C1`. -/
theorem c5_cross_dataset_guards_witness :
    emptyReg.workers = [] ∧ emptyReg.tasks = [] ∧ emptyReg.clients = [] ∧
    (clientRefCandidates taskWithClientRef).find? jsTruthy = some (Value.vStr "C1") ∧
    isValidClientReference (Except.error ()) (Value.vStr "C1") = true ∧
    registryErrors (Except.ok emptyReg) taskWithClientRef "tasks" = [] ∧
    (∀ res ∈ performCrossRecordValidation env0 (Except.ok emptyReg) [taskWithClientRef] "tasks",
      clientRefFinding ∈ res.errors) := by
  have h := c5_cross_dataset_guards env0 emptyReg taskWithClientRef (Value.vStr "C1")
  exact ⟨rfl, rfl, rfl, rfl, h.1, (h.2.1 rfl).1, h.2.2.2 rfl rfl⟩

/-- C6: with a registry holding one worker skilled only in React, the
task requiring React and Python gets exactly one skill-coverage error
finding, whose message names Python and not React (together with the
max-concurrency error the same registry state implies). -/
theorem c6_skill_coverage_concrete :
    ((validateBatch defaultRules env0 (.ok regSkill) [taskReactPython] "tasks").map
      (fun r => r.errors.map (fun f => (f.severity, f.message))) =
      [[("error", "Missing worker coverage for skills: Python"),
        ("error", "MaxConcurrent (1) exceeds number of qualified workers (0)")]]) ∧
    ("Python".toList <:+: "Missing worker coverage for skills: Python".toList) ∧
    ¬ ("React".toList <:+: "Missing worker coverage for skills: Python".toList) := by
  refine ⟨rfl, by decide, by decide⟩

/-- C7: a client whose requested task ids contain (case-insensitively)
unknown ids receives from the cross-record pass exactly one error
finding, `Unknown TaskIDs: …`, enumerating all the missing ids. -/
theorem c7_unknown_ids_single_finding (env : Env) (reg : Registry) (r : Obj)
    (hc : reg.clients ≠ []) (ht : reg.tasks ≠ [])
    (hu : (requestedTaskIdsOf r).filter
      (fun id => !(knownTaskIds reg.tasks).contains (jsToLower id)) ≠ []) :
    (performCrossRecordValidation env (Except.ok reg) [r] "clients").map
      (fun res => res.errors) =
      [[unknownTaskFinding ((requestedTaskIdsOf r).filter
        (fun id => !(knownTaskIds reg.tasks).contains (jsToLower id)))]] := by
  have hc' : reg.clients.isEmpty = false := by
    simpa [List.isEmpty_iff] using hc
  have ht' : reg.tasks.isEmpty = false := by
    simpa [List.isEmpty_iff] using ht
  have hu' : ((requestedTaskIdsOf r).filter
      (fun id => !(knownTaskIds reg.tasks).contains (jsToLower id))).isEmpty = false := by
    simpa [List.isEmpty_iff] using hu
  simp [performCrossRecordValidation, structuralErrors, registryErrors, registryWarnings,
    requestedTaskErrors, hc', ht', hu']
  rcases hlist : List.filter (fun id => !(knownTaskIds reg.tasks).contains (jsToLower id))
      (requestedTaskIdsOf r) with _ | ⟨a, as⟩
  · exact absurd hlist hu
  · have hmem : a ∈ List.filter (fun id => !(knownTaskIds reg.tasks).contains (jsToLower id))
        (requestedTaskIdsOf r) := by
      rw [hlist]
      exact List.mem_cons_self a as
    have ha := List.mem_filter.mp hmem
    exact ⟨a, ha.1, by simpa using ha.2⟩

/-- C7 witness: the client requesting `T1,T9,T10` against a registry
knowing only task `t1` gets the single finding
`Unknown TaskIDs: T9, T10`. -/
theorem c7_unknown_ids_single_finding_witness :
    regReqTasks.clients ≠ [] ∧ regReqTasks.tasks ≠ [] ∧
    (requestedTaskIdsOf clientReqTasks).filter
      (fun id => !(knownTaskIds regReqTasks.tasks).contains (jsToLower id)) = ["T9", "T10"] ∧
    (performCrossRecordValidation env0 (Except.ok regReqTasks) [clientReqTasks] "clients").map
      (fun res => res.errors) = [[unknownTaskFinding ["T9", "T10"]]] := by
  refine ⟨by simp [regReqTasks], by simp [regReqTasks], rfl, ?_⟩
  exact c7_unknown_ids_single_finding env0 regReqTasks clientReqTasks
    (by simp [regReqTasks]) (by simp [regReqTasks]) (by decide)

/-- C10: the cross-record merge leaves `score`, `qualityScore`,
`recordId`, `recordType` and `validatedAt` exactly as the per-record
validation computed them, at every index of the batch result. -/
theorem c10_merge_preserves_per_record_fields (rules : Rules) (env : Env)
    (regAcc : Except Unit Registry) (records : List Obj) (dataType : String) (i : Nat) :
    ((validateBatch rules env regAcc records dataType)[i]?).map
      (fun res => (res.score, res.qualityScore, res.recordId, res.recordType, res.validatedAt)) =
    (records[i]?).map (fun r =>
      ((validateRecord rules env r dataType).score,
       (validateRecord rules env r dataType).qualityScore,
       (validateRecord rules env r dataType).recordId,
       (validateRecord rules env r dataType).recordType,
       (validateRecord rules env r dataType).validatedAt)) := by
  unfold validateBatch performCrossRecordValidation
  rw [mergeResults_getElem?, List.getElem?_map, List.getElem?_map, List.getElem?_enum]
  cases h : records[i]? with
  | none => simp
  | some r => simp [mergeResult]


theorem dropWhile_head_false {p : Char → Bool} :
    ∀ {l t : List Char} {c : Char}, l.dropWhile p = c :: t → p c = false := by
  intro l
  induction l with
  | nil => intro t c h; simp [List.dropWhile] at h
  | cons a as ih =>
    intro t c h
    by_cases hp : p a
    · rw [List.dropWhile_cons_of_pos hp] at h
      exact ih h
    · rw [List.dropWhile_cons_of_neg hp] at h
      obtain ⟨rfl, -⟩ := List.cons.injEq .. ▸ h
      · simpa using hp

theorem exists_notp_mem_dropWhile {p : Char → Bool} :
    ∀ {l : List Char}, (∃ c ∈ l, p c = false) → ∃ c ∈ l.dropWhile p, p c = false := by
  intro l
  induction l with
  | nil => intro h; simp at h
  | cons a as ih =>
    intro h
    by_cases hp : p a
    · rw [List.dropWhile_cons_of_pos hp]
      apply ih
      obtain ⟨c, hc, hcp⟩ := h
      rcases List.mem_cons.mp hc with rfl | hmem
      · exact absurd hp (by simp [hcp])
      · exact ⟨c, hmem, hcp⟩
    · rw [List.dropWhile_cons_of_neg hp]
      exact ⟨a, List.mem_cons_self a as, by simpa using hp⟩

theorem trimChars_sublist (cs : List Char) : List.Sublist (trimChars cs) cs := by
  unfold trimChars
  have h1 : List.Sublist (cs.dropWhile jsIsWs) cs := List.dropWhile_sublist _
  have h2 : List.Sublist ((cs.dropWhile jsIsWs).reverse.dropWhile jsIsWs)
      (cs.dropWhile jsIsWs).reverse := List.dropWhile_sublist _
  have h3 := h2.reverse
  rw [List.reverse_reverse] at h3
  exact h3.trans h1

theorem trimChars_prefix (cs : List Char) :
    trimChars cs <+: cs.dropWhile jsIsWs := by
  unfold trimChars
  obtain ⟨pre, hp⟩ := List.dropWhile_suffix (l := (cs.dropWhile jsIsWs).reverse) jsIsWs
  refine ⟨pre.reverse, ?_⟩
  have := congrArg List.reverse hp
  simpa [List.reverse_append] using this

theorem trimChars_head_not_ws {cs t : List Char} {c : Char}
    (h : trimChars cs = c :: t) : jsIsWs c = false := by
  obtain ⟨rest, hrest⟩ := trimChars_prefix cs
  rw [h] at hrest
  exact dropWhile_head_false hrest.symm

theorem exists_notws_mem_trimChars {cs : List Char}
    (h : ∃ c ∈ cs, jsIsWs c = false) : ∃ c ∈ trimChars cs, jsIsWs c = false := by
  unfold trimChars
  have h1 := exists_notp_mem_dropWhile h
  have h2 : ∃ c ∈ (cs.dropWhile jsIsWs).reverse, jsIsWs c = false := by
    simpa [List.mem_reverse] using h1
  have h3 := exists_notp_mem_dropWhile h2
  simpa [List.mem_reverse] using h3

theorem takeWhile_eq_nil_of_none {p : Char → Bool} {l : List Char}
    (h : ∀ c ∈ l, p c = false) : l.takeWhile p = [] := by
  cases l with
  | nil => rfl
  | cons a as =>
    have := h a (List.mem_cons_self a as)
    simp [List.takeWhile_cons, this]

theorem matchRange_none_of_no_digit {s : String}
    (h : ∀ c ∈ s.toList, c.isDigit = false) : matchRange s = none := by
  simp only [matchRange]
  rw [takeWhile_eq_nil_of_none h]
  simp

theorem matchRange_head_digit {s : String} {x : Nat × Nat}
    (h : matchRange s = some x) : ∃ c t, s.toList = c :: t ∧ c.isDigit = true := by
  simp only [matchRange] at h
  cases hl : s.toList with
  | nil => rw [hl] at h; simp [List.takeWhile] at h
  | cons c t =>
    rw [hl] at h
    by_cases hd : c.isDigit
    · exact ⟨c, t, rfl, hd⟩
    · rw [List.takeWhile_cons_of_neg hd] at h
      simp at h


theorem splitAux_chars :
    ∀ (cs acc : List Char) (sk : Bool) (tok : String), tok ∈ splitCommaWsAux cs acc sk →
      ∀ c ∈ tok.toList, c ∈ cs ∨ c ∈ acc := by
  intro cs
  induction cs with
  | nil =>
    intro acc sk tok htok c hc
    simp only [splitCommaWsAux, List.mem_singleton] at htok
    subst htok
    right
    have : (String.mk acc.reverse).toList = acc.reverse := rfl
    rw [this, List.mem_reverse] at hc
    exact hc
  | cons a rest ih =>
    intro acc sk tok htok c hc
    simp only [splitCommaWsAux] at htok
    by_cases ha : a = ','
    · rw [if_pos ha] at htok
      rcases List.mem_cons.mp htok with rfl | hmem
      · right
        have : (String.mk (acc.dropWhile jsIsWs).reverse).toList =
            (acc.dropWhile jsIsWs).reverse := rfl
        rw [this, List.mem_reverse] at hc
        exact (List.dropWhile_sublist _).subset hc
      · rcases ih [] true tok hmem c hc with h | h
        · exact Or.inl (List.mem_cons_of_mem a h)
        · simp at h
    · rw [if_neg ha] at htok
      by_cases hsk : (sk && jsIsWs a) = true
      · rw [if_pos hsk] at htok
        rcases ih acc true tok htok c hc with h | h
        · exact Or.inl (List.mem_cons_of_mem a h)
        · exact Or.inr h
      · rw [if_neg hsk] at htok
        rcases ih (a :: acc) false tok htok c hc with h | h
        · exact Or.inl (List.mem_cons_of_mem a h)
        · rcases List.mem_cons.mp h with rfl | h2
          · exact Or.inl (List.mem_cons_self _ _)
          · exact Or.inr h2

theorem splitAux_token_nonws :
    ∀ (cs acc : List Char) (sk : Bool),
      (acc = [] → sk = true ∨ ∀ c t, cs = c :: t → jsIsWs c = false) →
      (acc ≠ [] → ∃ c ∈ acc, jsIsWs c = false) →
      ∀ tok ∈ splitCommaWsAux cs acc sk, tok ≠ "" →
        ∃ c ∈ tok.toList, jsIsWs c = false := by
  intro cs
  induction cs with
  | nil =>
    intro acc sk hem hne tok htok hne'
    simp only [splitCommaWsAux, List.mem_singleton] at htok
    subst htok
    have hacc : acc ≠ [] := by
      intro h
      subst h
      exact hne' rfl
    obtain ⟨c, hc, hcw⟩ := hne hacc
    refine ⟨c, ?_, hcw⟩
    have : (String.mk acc.reverse).toList = acc.reverse := rfl
    rw [this, List.mem_reverse]
    exact hc
  | cons a rest ih =>
    intro acc sk hem hne tok htok hne'
    simp only [splitCommaWsAux] at htok
    by_cases ha : a = ','
    · rw [if_pos ha] at htok
      rcases List.mem_cons.mp htok with rfl | hmem
      · have hd : acc.dropWhile jsIsWs ≠ [] := by
          intro h
          apply hne'
          show String.mk (acc.dropWhile jsIsWs).reverse = ""
          rw [h]
          rfl
        obtain ⟨c, t, hct⟩ := List.exists_cons_of_ne_nil hd
        refine ⟨c, ?_, dropWhile_head_false hct⟩
        have : (String.mk (acc.dropWhile jsIsWs).reverse).toList =
            (acc.dropWhile jsIsWs).reverse := rfl
        rw [this, List.mem_reverse, hct]
        exact List.mem_cons_self c t
      · exact ih [] true (fun _ => Or.inl rfl) (fun h => absurd rfl h) tok hmem hne'
    · rw [if_neg ha] at htok
      by_cases hsk : (sk && jsIsWs a) = true
      · rw [if_pos hsk] at htok
        exact ih acc true (fun _ => Or.inl rfl) hne tok htok hne'
      · rw [if_neg hsk] at htok
        refine ih (a :: acc) false ?_ ?_ tok htok hne'
        · intro h
          exact absurd h (List.cons_ne_nil a acc)
        · intro _
          by_cases hacc : acc = []
          · subst hacc
            rcases hem rfl with hsk' | hhead
            · refine ⟨a, List.mem_cons_self a [], ?_⟩
              subst hsk'
              simpa using hsk
            · exact ⟨a, List.mem_cons_self a [], hhead a rest rfl⟩
          · obtain ⟨c, hc, hcw⟩ := hne hacc
            exact ⟨c, List.mem_cons_of_mem a hc, hcw⟩

theorem jsStrToNumber_none_of_nodigit (tok : String)
    (hnd : ∀ c ∈ tok.toList, c.isDigit = false)
    (hws : ∃ c ∈ tok.toList, jsIsWs c = false) :
    jsStrToNumber tok = none := by
  have hndt : ∀ c ∈ trimChars tok.toList, c.isDigit = false :=
    fun c hc => hnd c ((trimChars_sublist _).subset hc)
  obtain ⟨c0, hc0, hc0w⟩ := exists_notws_mem_trimChars hws
  have hne : trimChars tok.toList ≠ [] := List.ne_nil_of_mem hc0
  simp only [jsStrToNumber]
  rw [if_neg (by simpa [List.isEmpty_iff] using hne)]
  cases htc : trimChars tok.toList with
  | nil => exact absurd htc hne
  | cons c cs =>
    have hcnd : c.isDigit = false := hndt c (htc ▸ List.mem_cons_self c cs)
    have hcsnd : ∀ x ∈ cs, x.isDigit = false :=
      fun x hx => hndt x (htc ▸ List.mem_cons_of_mem c hx)
    split
    · next ds heq =>
      injection heq with hc hcs
      subst hcs
      cases cs with
      | nil => simp
      | cons d ds' => simp [hcsnd d (List.mem_cons_self d ds')]
    · next ds heq =>
      injection heq with hc hcs
      subst hcs
      cases cs with
      | nil => simp
      | cons d ds' => simp [hcsnd d (List.mem_cons_self d ds')]
    · next h1 h2 =>
      simp [hcnd]


theorem parseNumberList_range (s : String) (a b : Nat)
    (hm : matchRange (jsTrim s) = some (a, b)) (hab : a ≤ b) :
    parseNumberList (.vStr s) =
      (List.range (b + 1 - a)).map (fun i => ((a + i : Nat) : Int)) := by
  obtain ⟨c, t, htl, hdig⟩ := matchRange_head_digit hm
  have hcbr : ¬(c = '[') := by
    intro h
    subst h
    exact absurd hdig (by decide)
  simp only [parseNumberList]
  rw [htl]
  simp [hcbr, strFallback, hm, hab]

theorem parseNumberList_nodigit (s : String)
    (h : ∀ c ∈ s.toList, c.isDigit = false ∧ c ≠ '[' ∧ c ≠ ']') :
    parseNumberList (.vStr s) = [] := by
  have htr : ∀ c ∈ (jsTrim s).toList, c.isDigit = false ∧ c ≠ '[' ∧ c ≠ ']' := by
    intro c hc
    exact h c ((trimChars_sublist s.toList).subset hc)
  simp only [parseNumberList]
  have hguard : ((jsTrim s).toList.head? = some '[' && (jsTrim s).toList.getLast? = some ']')
      = false := by
    cases hl : (jsTrim s).toList with
    | nil => simp
    | cons c t =>
      have := (htr c (hl ▸ List.mem_cons_self c t)).2.1
      simp [this]
  rw [hguard]
  have hnd : ∀ c ∈ (jsTrim s).toList, c.isDigit = false := fun c hc => (htr c hc).1
  have hsb : stripBrackets (jsTrim s) = jsTrim s := by
    unfold stripBrackets
    rw [List.filter_eq_self.mpr (fun c hc => by simp [(htr c hc).2.1, (htr c hc).2.2])]
    rfl
  simp only [Bool.false_eq_true, if_false, strFallback, matchRange_none_of_no_digit hnd,
    commaPath, hsb]
  refine List.filterMap_eq_nil_iff.mpr ?_
  intro tok htok
  obtain ⟨htoks, htokne⟩ := List.mem_filter.mp htok
  have htokne2 : tok ≠ "" := by
    intro heq
    rw [heq] at htokne
    exact absurd htokne (by decide)
  apply jsStrToNumber_none_of_nodigit
  · intro c hc
    rcases splitAux_chars _ _ _ tok htoks c hc with hmem | hmem
    · exact (htr c hmem).1
    · simp at hmem
  · exact splitAux_token_nonws (jsTrim s).toList [] false
      (fun _ => Or.inr fun c t hct => trimChars_head_not_ws hct)
      (fun hf => absurd rfl hf) tok htoks htokne2


/-- C8: the four specified evaluations of `parseNumberList`; additionally
the fifth conjunct shows a descending range (`"5-3"`) is not expanded but
falls through to the comma grammar and yields `[]`; the sixth is the
general range law (a trimmed input matching `/^(\d+)\s*-\s*(\d+)$/`
with `a ≤ b` expands to every integer from `a` to `b` inclusive); the
seventh is the out-of-grammar law: every input containing neither digits
nor brackets parses to the empty sequence.  The embedding is a total
function, so no input throws. -/
theorem c8_parseNumberList_grammar :
    parseNumberList (.vStr "[1,2,3]") = [1, 2, 3] ∧
    parseNumberList (.vStr "1-3") = [1, 2, 3] ∧
    parseNumberList (.vStr "2,,4") = [2, 4] ∧
    parseNumberList (.vStr "not a list") = [] ∧
    parseNumberList (.vStr "5-3") = [] ∧
    (∀ (s : String) (a b : Nat), matchRange (jsTrim s) = some (a, b) → a ≤ b →
      parseNumberList (.vStr s) =
        (List.range (b + 1 - a)).map (fun i => ((a + i : Nat) : Int))) ∧
    (∀ s : String, (∀ c ∈ s.toList, c.isDigit = false ∧ c ≠ '[' ∧ c ≠ ']') →
      parseNumberList (.vStr s) = []) :=
  ⟨by decide, by decide, by decide, by decide, by decide,
   parseNumberList_range, parseNumberList_nodigit⟩

/-- C8 witness: the range law instantiated at `"4-6"`, the
out-of-grammar law at `"abc"`. -/
theorem c8_parseNumberList_grammar_witness :
    matchRange (jsTrim "4-6") = some (4, 6) ∧
    parseNumberList (.vStr "4-6") = [4, 5, 6] ∧
    (∀ c ∈ "abc".toList, c.isDigit = false ∧ c ≠ '[' ∧ c ≠ ']') ∧
    parseNumberList (.vStr "abc") = [] := by
  refine ⟨by decide, ?_, by decide, ?_⟩
  · have h := c8_parseNumberList_grammar.2.2.2.2.2.1 "4-6" 4 6 (by decide) (by decide)
    rw [h]
    decide
  · exact c8_parseNumberList_grammar.2.2.2.2.2.2 "abc" (by decide)

theorem stripTime_mergeResult (r c : ValidationResult) :
    stripTime (mergeResult r c) = mergeResult (stripTime r) (stripTime c) := rfl

theorem map_stripTime_mergeResults (rs cs : List ValidationResult) :
    (mergeResults rs cs).map stripTime =
      mergeResults (rs.map stripTime) (cs.map stripTime) := by
  induction rs generalizing cs with
  | nil => cases cs <;> simp [mergeResults]
  | cons r rs ih =>
    cases cs with
    | nil => simp [mergeResults]
    | cons c cs => simp [mergeResults, ih, stripTime_mergeResult]

/-- C9 counterexample: two calls on an unchanged batch, rule set and
registry — but at different instants — give result arrays that are not
identical: the `validatedAt` stamps differ. -/
theorem c9_not_identical_across_time :
    validateBatch defaultRules env0 (.ok emptyReg) [clientAcme] "clients" ≠
    validateBatch defaultRules env1 (.ok emptyReg) [clientAcme] "clients" := by
  intro h
  have h2 := congrArg (fun l => l.map (fun r => r.validatedAt)) h
  exact absurd h2 (by decide)

/-- C9 (amended): two `validateBatch` calls on an unchanged batch, rule
set and registry give results identical in every field except the
`validatedAt` stamp, provided no rule predicate changes truth value
between the two evaluation instants (with the default rules only the
task `deadline-future` predicate reads the clock); with the instant also
unchanged the results are identical outright. -/
theorem c9_idempotent_up_to_time (rules : Rules) (envA envB : Env)
    (regAcc : Except Unit Registry) (records : List Obj) (dataType : String)
    (h : ∀ r ∈ records, ∀ rule ∈ getRules rules dataType,
      evaluateCondition envA rule.condition (getFieldValue r rule.field) r =
      evaluateCondition envB rule.condition (getFieldValue r rule.field) r) :
    (validateBatch rules envA regAcc records dataType).map stripTime =
    (validateBatch rules envB regAcc records dataType).map stripTime := by
  unfold validateBatch
  rw [map_stripTime_mergeResults, map_stripTime_mergeResults]
  have hrec : (records.map (fun r => validateRecord rules envA r dataType)).map stripTime =
      (records.map (fun r => validateRecord rules envB r dataType)).map stripTime := by
    rw [List.map_map, List.map_map]
    apply List.map_congr_left
    intro r hr
    have hfind : (getRules rules dataType).filterMap (fun rule =>
        if evaluateCondition envA rule.condition (getFieldValue r rule.field) r then none
        else some (findingOfRule rule)) =
      (getRules rules dataType).filterMap (fun rule =>
        if evaluateCondition envB rule.condition (getFieldValue r rule.field) r then none
        else some (findingOfRule rule)) := by
      apply List.filterMap_congr
      intro rule hrule
      rw [h r hr rule hrule]
    simp only [Function.comp, validateRecord, stripTime, hfind]
  have hcross : (performCrossRecordValidation envA regAcc records dataType).map stripTime =
      (performCrossRecordValidation envB regAcc records dataType).map stripTime := by
    unfold performCrossRecordValidation
    rw [List.map_map, List.map_map]
    apply List.map_congr_left
    intro p _
    rfl
  rw [hrec, hcross]

/-- C9 witness: the amended idempotence on a concrete client batch
across two distinct instants. -/
theorem c9_idempotent_up_to_time_witness :
    (∀ r ∈ [clientAcme], ∀ rule ∈ getRules defaultRules "clients",
      evaluateCondition env0 rule.condition (getFieldValue r rule.field) r =
      evaluateCondition env1 rule.condition (getFieldValue r rule.field) r) ∧
    (validateBatch defaultRules env0 (.ok emptyReg) [clientAcme] "clients").map stripTime =
    (validateBatch defaultRules env1 (.ok emptyReg) [clientAcme] "clients").map stripTime := by
  have hh : ∀ r ∈ [clientAcme], ∀ rule ∈ getRules defaultRules "clients",
      evaluateCondition env0 rule.condition (getFieldValue r rule.field) r =
      evaluateCondition env1 rule.condition (getFieldValue r rule.field) r := by decide
  exact ⟨hh, c9_idempotent_up_to_time defaultRules env0 env1 (.ok emptyReg) [clientAcme]
    "clients" hh⟩
end DataAlchemist
